import Mathlib

/-!
Shallow embedding of the rnzml renderer (rnzml.go): a line-oriented
markup-to-HTML converter built from a block scanner (paragraph lines
versus fenced code blocks) and a rune-by-rune inline renderer handling
escapes, bold spans, inline code spans and links.  The embedding also
models the escaping behaviour of the Go standard library that the code
calls into: template.HTMLEscape for plain text, and the contextual
escapers that the html/template engine applies when executing the link
template with a URL placed in an href attribute and a label placed in
element content.
-/

namespace Rnzml

/-- Models Go template.HTMLEscape restricted to a single character: the
NUL byte becomes the replacement character, the five characters
quote, apostrophe, ampersand, less-than and greater-than become entity
references, every other character passes through unchanged. -/
def htmlEscapeChar (c : Char) : String :=
  if c = Char.ofNat 0 then "�"
  else if c = '"' then "&#34;"
  else if c = '\'' then "&#39;"
  else if c = '&' then "&amp;"
  else if c = '<' then "&lt;"
  else if c = '>' then "&gt;"
  else String.singleton c

/-- Models Go template.HTMLEscape on a whole string (used by Render for
code-block lines); on valid UTF-8 the byte-wise Go loop only rewrites
ASCII bytes, so it coincides with this character-wise map. -/
def htmlEscape (s : String) : String :=
  String.join (s.data.map htmlEscapeChar)

/-- Models the htmlReplacementTable escaping of the Go html/template
engine, used for quoted attribute values and for text nodes: it extends
template.HTMLEscape by also rewriting plus, equals and backtick. -/
def templateEscapeChar (c : Char) : String :=
  if c = Char.ofNat 0 then "�"
  else if c = '"' then "&#34;"
  else if c = '&' then "&amp;"
  else if c = '\'' then "&#39;"
  else if c = '+' then "&#43;"
  else if c = '<' then "&lt;"
  else if c = '=' then "&#61;"
  else if c = '>' then "&gt;"
  else if c = '`' then "&#96;"
  else String.singleton c

/-- The htmlReplacementTable escaping applied to a whole string. -/
def templateEscape (s : String) : String :=
  String.join (s.data.map templateEscapeChar)

/-- UTF-8 encoding of one character as a list of byte values (each below
256), matching the Go encoding of a rune. -/
def utf8Bytes (c : Char) : List Nat :=
  let v := c.toNat
  if v < 128 then [v]
  else if v < 2048 then [192 + v / 64, 128 + v % 64]
  else if v < 65536 then [224 + v / 4096, 128 + (v / 64) % 64, 128 + v % 64]
  else [240 + v / 262144, 128 + (v / 4096) % 64, 128 + (v / 64) % 64, 128 + v % 64]

/-- UTF-8 byte sequence of a string. -/
def strBytes (s : String) : List Nat :=
  s.data.flatMap utf8Bytes

/-- Models the isHex predicate of the html/template URL processor: ASCII
digits and hex letters in either case. -/
def isHexByte (b : Nat) : Bool :=
  (48 ≤ b && b ≤ 57) || (97 ≤ b && b ≤ 102) || (65 ≤ b && b ≤ 70)

/-- Bytes that the html/template URL normalizer leaves unencoded: the
RFC 3986 reserved punctuation it preserves in normalization mode,
digits, letters, and the unreserved marks dash, dot, underscore and
tilde. -/
def urlKeepByte (b : Nat) : Bool :=
  b = 33 || b = 35 || b = 36 || b = 38 || b = 42 || b = 43 || b = 44 ||
  b = 47 || b = 58 || b = 59 || b = 61 || b = 63 || b = 64 || b = 91 || b = 93 ||
  (48 ≤ b && b ≤ 57) || b = 45 || b = 46 || b = 95 || b = 126 ||
  (97 ≤ b && b ≤ 122) || (65 ≤ b && b ≤ 90)

/-- Lowercase hex digit for a value below 16. -/
def hexDigit (n : Nat) : Char :=
  if n < 10 then Char.ofNat (48 + n) else Char.ofNat (87 + n)

/-- Two lowercase hex digits of a byte value, as the Go format %02x
prints a byte. -/
def byteHex (b : Nat) : String :=
  String.mk [hexDigit (b / 16), hexDigit (b % 16)]

/-- Models processURLOnto of html/template in normalization mode: kept
bytes pass through, a percent sign followed by two hex digits is kept
verbatim, every other byte is percent-encoded with lowercase hex. -/
def normURLBytes : List Nat → String
  | [] => ""
  | b :: b1 :: b2 :: rest2 =>
    if b = 37 && isHexByte b1 && isHexByte b2 then
      "%" ++ String.mk [Char.ofNat b1, Char.ofNat b2] ++ normURLBytes rest2
    else if b = 37 then
      "%25" ++ normURLBytes (b1 :: b2 :: rest2)
    else if urlKeepByte b then
      String.singleton (Char.ofNat b) ++ normURLBytes (b1 :: b2 :: rest2)
    else
      "%" ++ byteHex b ++ normURLBytes (b1 :: b2 :: rest2)
  | b :: rest =>
    if b = 37 then "%25" ++ normURLBytes rest
    else if urlKeepByte b then String.singleton (Char.ofNat b) ++ normURLBytes rest
    else "%" ++ byteHex b ++ normURLBytes rest

/-- Splits a character list at the first colon, as strings.Cut does on
the colon separator. -/
def cutColon : List Char → Option (List Char × List Char)
  | [] => none
  | c :: rest =>
    if c = ':' then some ([], rest)
    else
      match cutColon rest with
      | none => none
      | some (a, b) => some (c :: a, b)

/-- ASCII lowercasing of one character. -/
def asciiLowerChar (c : Char) : Char :=
  if 65 ≤ c.toNat ∧ c.toNat ≤ 90 then Char.ofNat (c.toNat + 32) else c

/-- ASCII lowercasing of a string; the schemes compared against are all
ASCII, so this matches the case folding done by strings.EqualFold
there. -/
def asciiLower (s : String) : String :=
  String.mk (s.data.map asciiLowerChar)

/-- Models urlFilter of html/template: a URL whose scheme part (the text
before the first colon, when that text has no slash) is not http, https
or mailto is rejected. -/
def isSafeURL (s : String) : Bool :=
  match cutColon s.data with
  | none => true
  | some (protocol, _) =>
    if '/' ∈ protocol then true
    else
      let p := asciiLower (String.mk protocol)
      p = "http" || p = "https" || p = "mailto"

/-- The full escaping pipeline html/template applies to the URL field of
the link template inside the href attribute: the URL filter, then the
URL normalizer, then quoted-attribute escaping. -/
def escapeURL (s : String) : String :=
  templateEscape (normURLBytes (strBytes (if isSafeURL s then s else "#ZgotmplZ")))

/-- Models executing the link template of rnzml.go on a URL and a label:
the URL is escaped for the href attribute context and the label for
element content. -/
def execLinkTemplate (url label : String) : String :=
  "<a href=\"" ++ escapeURL url ++ "\">" ++ templateEscape label ++ "</a>"

/-- Models writeEscapedRune of renderLine.  The Go code encodes the rune
into the shared buffer created as a byte slice literal holding the
single element 4, so the buffer has length one and utf8.EncodeRune
panics (index out of range) for every rune whose encoding needs more
than one byte; none models that panic.  A one-byte rune is written
through template.HTMLEscape. -/
def writeEscapedRune (c : Char) : Option String :=
  if c.utf8Size = 1 then some (htmlEscapeChar c) else none

/-- The per-line state of renderLine: the byte offsets of the open
escape, bold, code and link controls (none standing for the sentinel
-1 of the Go code) and the accumulated link content. -/
structure IState where
  lastEscape : Option Nat
  lastBold : Option Nat
  lastCode : Option Nat
  lastLink : Option Nat
  linkContent : String
deriving DecidableEq, Repr

/-- The state at the start of renderLine: no control open, empty link
accumulator. -/
def initState : IState := ⟨none, none, none, none, ""⟩

/-- Outcome of consuming one rune: a panic, an error, or a successor
state together with the text emitted for that rune. -/
inductive StepResult where
  | panicked : StepResult
  | errored (msg : String) : StepResult
  | next (s : IState) (emitted : String) : StepResult
deriving DecidableEq, Repr

/-- Models strings.SplitN with separator one space and limit two on the
character list: two parts when a space occurs, none otherwise. -/
def splitFirstSpaceAux : List Char → Option (List Char × List Char)
  | [] => none
  | c :: rest =>
    if c = ' ' then some ([], rest)
    else
      match splitFirstSpaceAux rest with
      | none => none
      | some (a, b) => some (c :: a, b)

/-- Splitting a string on its first space into URL and label parts, as
renderLine does when a link closes. -/
def splitFirstSpace (s : String) : Option (String × String) :=
  match splitFirstSpaceAux s.data with
  | none => none
  | some (a, b) => some (String.mk a, String.mk b)

/-- The malformed-link error message of renderLine. -/
def malformedLinkMsg (content : String) : String :=
  "Links must have a URL and a Label separated by a space. Instead found: " ++ content

/-- One step of the renderLine loop on the rune c sitting at byte offset
n, translated branch for branch from the Go loop body: escape pending
first, then link mode, then code mode, then the default mode. -/
def stepChar (s : IState) (n : Nat) (c : Char) : StepResult :=
  match s.lastEscape with
  | some _ =>
    match s.lastLink with
    | some _ => .next { s with linkContent := s.linkContent.push c, lastEscape := none } ""
    | none =>
      match writeEscapedRune c with
      | none => .panicked
      | some t => .next { s with lastEscape := none } t
  | none =>
    match s.lastLink with
    | some _ =>
      if c = '\\' then .next { s with lastEscape := some n } ""
      else if c = ']' then
        match splitFirstSpace s.linkContent with
        | none => .errored (malformedLinkMsg s.linkContent)
        | some (url, label) =>
          .next { s with lastLink := none, linkContent := "" } (execLinkTemplate url label)
      else .next { s with linkContent := s.linkContent.push c } ""
    | none =>
      match s.lastCode with
      | some _ =>
        if c = '\\' then .next { s with lastEscape := some n } ""
        else if c = '`' then .next { s with lastCode := none } "</code>"
        else
          match writeEscapedRune c with
          | none => .panicked
          | some t => .next s t
      | none =>
        if c = '\\' then .next { s with lastEscape := some n } ""
        else if c = '*' then
          match s.lastBold with
          | none => .next { s with lastBold := some n } "<strong>"
          | some _ => .next { s with lastBold := none } "</strong>"
        else if c = '`' then .next { s with lastCode := some n } "<code>"
        else if c = '[' then .next { s with lastLink := some n } ""
        else
          match writeEscapedRune c with
          | none => .panicked
          | some t => .next s t

/-- Outcome of running the loop over a suffix of the line. -/
inductive LoopResult where
  | panicked : LoopResult
  | errored (msg : String) : LoopResult
  | done (s : IState) (out : String) : LoopResult
deriving DecidableEq, Repr

/-- Runs the renderLine loop over the remaining runes, threading the
byte offset exactly as the Go range loop does. -/
def runChars (s : IState) (n : Nat) (out : String) : List Char → LoopResult
  | [] => .done s out
  | c :: rest =>
    match stepChar s n c with
    | .panicked => .panicked
    | .errored msg => .errored msg
    | .next s2 t => runChars s2 (n + c.utf8Size) (out ++ t) rest

/-- Result of renderLine: a panic, an error value, or the rendered
fragment. -/
inductive LineResult where
  | panicked : LineResult
  | errored (msg : String) : LineResult
  | ok (out : String) : LineResult
deriving DecidableEq, Repr

/-- The end-of-line checks of renderLine, in source order: unclosed
bold, then unclosed code, then unclosed link; a pending escape is not
checked. -/
def finishLine (s : IState) (out : String) : LineResult :=
  match s.lastBold with
  | some b => .errored ("unclosed bold text (*) at position: " ++ toString b)
  | none =>
    match s.lastCode with
    | some k => .errored ("unclosed code text (`) at position: " ++ toString k)
    | none =>
      match s.lastLink with
      | some k => .errored ("unclosed link ([) at position: " ++ toString k)
      | none => .ok out

/-- Models renderLine of rnzml.go on one paragraph line. -/
def renderLine (line : String) : LineResult :=
  match runChars initState 0 "" line.data with
  | .panicked => .panicked
  | .errored msg => .errored msg
  | .done s out => finishLine s out

/-- The fence marker line: exactly three backticks. -/
def fenceMarker : String := "```"

/-- Outcome of the Render loop body on one line: a panic or error ends
the render, otherwise the fence state (the recorded opening line
number, none when outside a fence) and the emitted text continue it. -/
inductive BlockOut where
  | panicked : BlockOut
  | errored (msg : String) : BlockOut
  | next (fence : Option Nat) (emitted : String) : BlockOut
deriving DecidableEq, Repr

/-- One iteration of the Render loop, translated from the Go body: a
fence line toggles the fence state and emits the block marker; a
non-empty line outside a fence is a paragraph line rendered through
renderLine between the paragraph markers, an inline error being wrapped
with the line number; every other line (a line inside a fence, or an
empty line outside one) is written HTML-escaped followed by a
newline. -/
def blockStep (fence : Option Nat) (lineNum : Nat) (line : String) : BlockOut :=
  if line = fenceMarker then
    match fence with
    | none => .next (some lineNum) "<pre><code>"
    | some _ => .next none "</code></pre>\n"
  else if fence = none ∧ line ≠ "" then
    match renderLine line with
    | .panicked => .panicked
    | .errored msg => .errored ("line " ++ toString lineNum ++ ": " ++ msg)
    | .ok frag => .next fence ("<p>" ++ frag ++ "\n</p>\n")
  else
    .next fence (htmlEscape line ++ "\n")

/-- Result of Render: a panic, an error value, or the full output. -/
inductive RenderResult where
  | panicked : RenderResult
  | errored (msg : String) : RenderResult
  | ok (out : String) : RenderResult
deriving DecidableEq, Repr

/-- The unclosed-code-block error message of Render. -/
def unclosedFenceMsg (k : Nat) : String :=
  "unclosed code block (```) on line: " ++ toString k

/-- The Render loop over the scanned lines, numbering lines from one
and checking at end of input that no fence is left open. -/
def renderLines (lineNum : Nat) (fence : Option Nat) (acc : String) :
    List String → RenderResult
  | [] =>
    match fence with
    | some k => .errored (unclosedFenceMsg k)
    | none => .ok acc
  | line :: rest =>
    match blockStep fence lineNum line with
    | .panicked => .panicked
    | .errored msg => .errored msg
    | .next f2 em => renderLines (lineNum + 1) f2 (acc ++ em) rest

/-- Drops one trailing carriage return, as the dropCR helper of
bufio.ScanLines does on each token. -/
def dropCR (l : List Char) : List Char :=
  match l.getLast? with
  | some c => if c = '\r' then l.dropLast else l
  | none => l

/-- Accumulator-based scanner: splits the character stream at newline
bytes, stripping one trailing carriage return per line, and at end of
input emits a final non-terminated line only when it is non-empty,
matching bufio.ScanLines. -/
def splitLinesAux : List Char → List Char → List String
  | [], [] => []
  | [], cur => [String.mk (dropCR cur.reverse)]
  | c :: rest, cur =>
    if c = '\n' then String.mk (dropCR cur.reverse) :: splitLinesAux rest []
    else splitLinesAux rest (c :: cur)

/-- The lines that bufio.Scanner with ScanLines yields for a document. -/
def splitLines (s : String) : List String :=
  splitLinesAux s.data []

/-- Models Render of rnzml.go on a whole input document. -/
def render (input : String) : RenderResult :=
  renderLines 1 none "" (splitLines input)

/-- The fence state left after the block scanner has consumed a list of
lines, starting from the given line number and fence state: a fence
line toggles it, every other line leaves it unchanged. -/
def fenceAfter (lineNum : Nat) (fence : Option Nat) : List String → Option Nat
  | [] => fence
  | line :: rest =>
    if line = fenceMarker then
      match fence with
      | none => fenceAfter (lineNum + 1) (some lineNum) rest
      | some _ => fenceAfter (lineNum + 1) none rest
    else fenceAfter (lineNum + 1) fence rest

/-- Decides that the Render loop consumes every line without an inline
error or panic, so the loop reaches the end-of-input check. -/
def linesComplete (lineNum : Nat) (fence : Option Nat) : List String → Bool
  | [] => true
  | line :: rest =>
    match blockStep fence lineNum line with
    | .next f2 _ => linesComplete (lineNum + 1) f2 rest
    | _ => false

end Rnzml
namespace Rnzml

/-! Helper lemmas shared by the claim theorems. -/

theorem splitFirstSpaceAux_eq_none_iff (l : List Char) :
    splitFirstSpaceAux l = none ↔ ' ' ∉ l := by
  induction l with
  | nil => simp [splitFirstSpaceAux]
  | cons c rest ih =>
    by_cases hc : c = ' '
    · subst hc
      simp [splitFirstSpaceAux]
    · cases hsp : splitFirstSpaceAux rest with
      | none =>
        rw [hsp] at ih
        simp only [splitFirstSpaceAux, if_neg hc, hsp, List.mem_cons]
        constructor
        · intro _ hmem
          rcases hmem with hmem | hmem
          · exact hc hmem.symm
          · exact (ih.mp rfl) hmem
        · intro _
          trivial
      | some p =>
        obtain ⟨a, b⟩ := p
        rw [hsp] at ih
        simp only [splitFirstSpaceAux, if_neg hc, hsp, List.mem_cons]
        constructor
        · intro hcontra
          exact absurd hcontra (by simp)
        · intro hnotmem
          have : ' ' ∈ rest := by
            by_contra hno
            exact absurd (ih.mpr hno) (by simp)
          exact absurd (Or.inr this) hnotmem

theorem splitFirstSpace_eq_none_iff (s : String) :
    splitFirstSpace s = none ↔ ' ' ∉ s.data := by
  unfold splitFirstSpace
  cases hsp : splitFirstSpaceAux s.data with
  | none =>
    simp only [hsp]
    simpa using (splitFirstSpaceAux_eq_none_iff s.data).mp hsp
  | some p =>
    obtain ⟨a, b⟩ := p
    simp only [hsp]
    constructor
    · intro hcontra
      exact absurd hcontra (by simp)
    · intro hnotmem
      exact absurd ((splitFirstSpaceAux_eq_none_iff s.data).mpr hnotmem) (by simp [hsp])

theorem stepChar_close_link {s : IState} {n m : Nat}
    (he : s.lastEscape = none) (hl : s.lastLink = some m) :
    stepChar s n ']' =
      match splitFirstSpace s.linkContent with
      | none => .errored (malformedLinkMsg s.linkContent)
      | some (url, label) =>
        .next { s with lastLink := none, linkContent := "" } (execLinkTemplate url label) := by
  obtain ⟨e, b, cd, lk, lc⟩ := s
  dsimp at he hl ⊢
  subst he
  subst hl
  simp [stepChar]

theorem stepChar_excl {s : IState} {n : Nat} {c : Char} {s2 : IState} {t : String}
    (h : stepChar s n c = .next s2 t) (hs : s.lastCode = none ∨ s.lastLink = none) :
    s2.lastCode = none ∨ s2.lastLink = none := by
  obtain ⟨e, b, cd, lk, lc⟩ := s
  dsimp at hs
  cases e <;> cases lk <;> cases cd <;> simp only [stepChar] at h
  all_goals try split at h
  all_goals try split at h
  all_goals try split at h
  all_goals try split at h
  all_goals try split at h
  all_goals try cases h
  all_goals simp_all

theorem runChars_excl (l : List Char) : ∀ (s : IState) (n : Nat) (out : String)
    (s2 : IState) (out2 : String), (s.lastCode = none ∨ s.lastLink = none) →
    runChars s n out l = .done s2 out2 → s2.lastCode = none ∨ s2.lastLink = none := by
  induction l with
  | nil =>
    intro s n out s2 out2 hs h
    cases h
    exact hs
  | cons c rest ih =>
    intro s n out s2 out2 hs h
    unfold runChars at h
    cases hst : stepChar s n c <;> rw [hst] at h
    · cases h
    · cases h
    · exact ih _ _ _ _ _ (stepChar_excl hst hs) h

theorem blockStep_fence_marker (fence : Option Nat) (num : Nat) :
    blockStep fence num fenceMarker =
      match fence with
      | none => .next (some num) "<pre><code>"
      | some _ => .next none "</code></pre>\n" := by
  cases fence <;> simp [blockStep]

theorem blockStep_next_fence {fence : Option Nat} {num : Nat} {line : String}
    {f2 : Option Nat} {em : String} (hne : line ≠ fenceMarker)
    (h : blockStep fence num line = .next f2 em) : f2 = fence := by
  unfold blockStep at h
  rw [if_neg hne] at h
  split at h
  · cases hr : renderLine line <;> rw [hr] at h
    · cases h
    · cases h
    · cases h
      rfl
  · cases h
    rfl

theorem fenceAfter_cons_next {fence : Option Nat} {num : Nat} {line : String}
    {f2 : Option Nat} {em : String} (h : blockStep fence num line = .next f2 em)
    (rest : List String) :
    fenceAfter num fence (line :: rest) = fenceAfter (num + 1) f2 rest := by
  by_cases hf : line = fenceMarker
  · subst hf
    rw [blockStep_fence_marker] at h
    cases fence with
    | none =>
      injection h with h1 h2
      subst h1
      simp [fenceAfter]
    | some j =>
      injection h with h1 h2
      subst h1
      simp [fenceAfter]
  · rw [blockStep_next_fence hf h]
    simp [fenceAfter, hf]

theorem renderLines_complete_spec (lines : List String) : ∀ (num : Nat)
    (fence : Option Nat) (acc : String), linesComplete num fence lines = true →
    (∀ k, fenceAfter num fence lines = some k →
      renderLines num fence acc lines = .errored (unclosedFenceMsg k)) ∧
    (fenceAfter num fence lines = none →
      ∃ out, renderLines num fence acc lines = .ok out) := by
  induction lines with
  | nil =>
    intro num fence acc _
    refine ⟨fun k hk => ?_, fun hk => ?_⟩
    · simp only [fenceAfter] at hk
      simp [renderLines, hk]
    · simp only [fenceAfter] at hk
      exact ⟨acc, by simp [renderLines, hk]⟩
  | cons line rest ih =>
    intro num fence acc h
    unfold linesComplete at h
    cases hb : blockStep fence num line <;> rw [hb] at h
    · simp at h
    · simp at h
    case next f2 em =>
      have hrec := ih (num + 1) f2 (acc ++ em) h
      have hfa := fenceAfter_cons_next hb rest
      have hrl : renderLines num fence acc (line :: rest) =
          renderLines (num + 1) f2 (acc ++ em) rest := by
        have heq : renderLines num fence acc (line :: rest) =
            match blockStep fence num line with
            | .panicked => .panicked
            | .errored msg => .errored msg
            | .next f2 em => renderLines (num + 1) f2 (acc ++ em) rest := rfl
        rw [heq, hb]
      rw [hfa, hrl]
      exact hrec

end Rnzml
namespace Rnzml

/-- C1: renderLine is claimed total on every line, Unicode included; in
fact the shared rune buffer has length one, so emitting any rune whose
UTF-8 encoding is longer than one byte panics, as this evaluation at a
two-byte rune shows. -/
theorem renderLine_panics_on_multibyte_rune :
    renderLine "é" = .panicked ∧ render "é" = .panicked ∧
    writeEscapedRune 'é' = none ∧ writeEscapedRune 'a' = some "a" := by
  decide

/-- C2 counterexample: the claim says a link whose URL part or Label
part is empty must fail, but the code only checks that a space exists,
so both of these render successfully. -/
theorem empty_link_halves_succeed :
    renderLine "[1 ]" = .ok "<a href=\"1\"></a>" ∧
    renderLine "[ 2]" = .ok "<a href=\"\">2</a>" := by
  decide

/-- C2 amended: closing a link splits the accumulated content on the
first space and fails with the malformed-link error exactly when the
content contains no space; when a space exists the link is emitted even
if the URL half or the Label half is empty. -/
theorem close_link_fails_iff_no_space :
    (∀ (s : IState) (n m : Nat), s.lastEscape = none → s.lastLink = some m →
      (((∃ msg, stepChar s n ']' = .errored msg) ↔ ' ' ∉ s.linkContent.data) ∧
       (∀ url label, splitFirstSpace s.linkContent = some (url, label) →
         stepChar s n ']' =
           .next { s with lastLink := none, linkContent := "" }
             (execLinkTemplate url label)))) ∧
    renderLine "[ ]" = .ok "<a href=\"\"></a>" ∧
    renderLine "[12]" = .errored (malformedLinkMsg "12") ∧
    renderLine "[]" = .errored (malformedLinkMsg "") := by
  refine ⟨fun s n m he hl => ⟨?_, fun url label hsp => ?_⟩, by decide, by decide, by decide⟩
  · rw [stepChar_close_link he hl]
    cases hsp : splitFirstSpace s.linkContent with
    | none =>
      simp only [hsp]
      constructor
      · intro _
        exact (splitFirstSpace_eq_none_iff s.linkContent).mp hsp
      · intro _
        exact ⟨malformedLinkMsg s.linkContent, rfl⟩
    | some p =>
      obtain ⟨u, l⟩ := p
      simp only [hsp]
      constructor
      · intro hex
        obtain ⟨msg, hmsg⟩ := hex
        cases hmsg
      · intro hno
        exact absurd ((splitFirstSpace_eq_none_iff s.linkContent).mpr hno) (by simp [hsp])
  · rw [stepChar_close_link he hl, hsp]

/-- C2 witness: a concrete link state with no space in its content, on
which closing the link errors. -/
theorem close_link_fails_iff_no_space_witness :
    ∃ msg, stepChar ⟨none, none, none, some 0, "ab"⟩ 5 ']' = .errored msg :=
  ((close_link_fails_iff_no_space.1 ⟨none, none, none, some 0, "ab"⟩ 5 0 rfl rfl).1).mpr
    (by decide)

/-- C3: the claim says a blank line outside a fence contributes no
bytes, but the code routes an empty paragraph-mode line into the
code-block-line branch, which writes the HTML escape of the empty line
followed by a newline; each blank line therefore emits exactly one
newline byte. -/
theorem blank_line_emits_newline :
    render "a\n\nb" = .ok "<p>a\n</p>\n\n<p>b\n</p>\n" ∧
    (∀ num : Nat, blockStep none num "" = .next none "\n") := by
  refine ⟨by decide, fun num => ?_⟩
  unfold blockStep
  rw [if_neg (by decide : ("" : String) ≠ fenceMarker),
    if_neg (by simp : ¬((none : Option Nat) = none ∧ ("" : String) ≠ ""))]
  rfl

/-- C4: when the block scanner consumes every line without an inline
error, Render fails with the unclosed-code-block error carrying the
opening line number exactly when the final block mode is a fence, and
succeeds when the final block mode is paragraph mode. -/
theorem render_unclosed_fence (input : String)
    (h : linesComplete 1 none (splitLines input) = true) :
    (∀ k, fenceAfter 1 none (splitLines input) = some k →
      render input = .errored (unclosedFenceMsg k)) ∧
    (fenceAfter 1 none (splitLines input) = none →
      ∃ out, render input = .ok out) :=
  renderLines_complete_spec (splitLines input) 1 none "" h

/-- C4 witness: a document with valid content before an unclosed fence
opened on line 2 fails with the fence error for line 2. -/
theorem render_unclosed_fence_witness :
    linesComplete 1 none (splitLines "a\n```\nx") = true ∧
    render "a\n```\nx" = .errored (unclosedFenceMsg 2) :=
  ⟨by decide, (render_unclosed_fence "a\n```\nx" (by decide)).1 2 (by decide)⟩

/-- C5: an inline error on a paragraph line is wrapped with the 1-based
line number and ends the render at once; on the three-line input the
message is exactly the claimed one. -/
theorem line_error_wrapped :
    render "a\nb*\nc" = .errored "line 2: unclosed bold text (*) at position: 1" ∧
    (∀ (num : Nat) (line msg : String), line ≠ fenceMarker → line ≠ "" →
      renderLine line = .errored msg →
      blockStep none num line = .errored ("line " ++ toString num ++ ": " ++ msg)) ∧
    (∀ (num : Nat) (fence : Option Nat) (acc line msg : String) (rest : List String),
      blockStep fence num line = .errored msg →
      renderLines num fence acc (line :: rest) = .errored msg) := by
  refine ⟨by decide, fun num line msg hf hne hr => ?_, fun num fence acc line msg rest hb => ?_⟩
  · unfold blockStep
    rw [if_neg hf, if_pos ⟨rfl, hne⟩, hr]
  · have heq : renderLines num fence acc (line :: rest) =
        match blockStep fence num line with
        | .panicked => .panicked
        | .errored msg => .errored msg
        | .next f2 em => renderLines (num + 1) f2 (acc ++ em) rest := rfl
    rw [heq, hb]

/-- C5 witness: the wrapping applied to the concrete failing line. -/
theorem line_error_wrapped_witness :
    blockStep none 2 "b*" =
      .errored ("line " ++ toString 2 ++ ": " ++ "unclosed bold text (*) at position: 1") :=
  line_error_wrapped.2.1 2 "b*" "unclosed bold text (*) at position: 1"
    (by decide) (by decide) (by decide)

/-- C6: a backslash makes the next rune literal data, and an escape
left pending at end of line is not an error and emits nothing more:
the escape table evaluations, the general escaped-rune fact, and the
end-of-line check ignoring a pending escape. -/
theorem escape_semantics :
    renderLine "\\*" = .ok "*" ∧
    renderLine "\\\\" = .ok "\\" ∧
    renderLine "\\" = .ok "" ∧
    (∀ c : Char, c.utf8Size = 1 →
      renderLine (String.mk ['\\', c]) = .ok (htmlEscapeChar c)) ∧
    (∀ (e : Option Nat) (out : String),
      finishLine ⟨e, none, none, none, ""⟩ out = .ok out) := by
  refine ⟨by decide, by decide, by decide, fun c h => ?_, fun e out => rfl⟩
  show (match runChars initState 0 "" ['\\', c] with
    | .panicked => LineResult.panicked
    | .errored msg => LineResult.errored msg
    | .done s out => finishLine s out) = .ok (htmlEscapeChar c)
  simp [runChars, stepChar, initState, writeEscapedRune, h, finishLine]

/-- C6 witness: the general escaped-rune fact at a concrete one-byte
rune. -/
theorem escape_semantics_witness :
    ('x'.utf8Size = 1) ∧ renderLine (String.mk ['\\', 'x']) = .ok (htmlEscapeChar 'x') :=
  ⟨by decide, escape_semantics.2.2.2.1 'x' (by decide)⟩

/-- C7: a line toggles the block mode exactly when it is three
backticks: a fence line always flips the fence state, any other line
that continues the scan leaves the fence state unchanged, and two
consecutive fence lines render an empty code block. -/
theorem fence_toggle_iff :
    (∀ (fence : Option Nat) (num : Nat), blockStep fence num "```" =
      match fence with
      | none => .next (some num) "<pre><code>"
      | some _ => .next none "</code></pre>\n") ∧
    (∀ (fence f2 : Option Nat) (num : Nat) (line em : String), line ≠ "```" →
      blockStep fence num line = .next f2 em → f2 = fence) ∧
    render "```\n```" = .ok "<pre><code></code></pre>\n" :=
  ⟨fun fence num => blockStep_fence_marker fence num,
   fun _ _ _ _ _ hne h => blockStep_next_fence hne h,
   by decide⟩

/-- C7 witness: a non-fence line inside a fence leaves the fence state
unchanged. -/
theorem fence_toggle_iff_witness : (some 5 : Option Nat) = some 5 :=
  fence_toggle_iff.2.1 (some 5) (some 5) 1 "x" "x\n" (by decide) (by decide)

/-- C8: inside an open link with no pending escape, every rune other
than backslash and the closing bracket is appended verbatim to the link
accumulator with no other effect, and the content is split on the first
space only. -/
theorem link_content_verbatim :
    (∀ (s : IState) (n : Nat) (c : Char) (m : Nat), s.lastEscape = none →
      s.lastLink = some m → c ≠ '\\' → c ≠ ']' →
      stepChar s n c = .next { s with linkContent := s.linkContent.push c } "") ∧
    renderLine "[1 2]" = .ok "<a href=\"1\">2</a>" ∧
    renderLine "[1 2 3]" = .ok "<a href=\"1\">2 3</a>" := by
  refine ⟨fun s n c m he hl h1 h2 => ?_, by decide, by decide⟩
  obtain ⟨e, b, cd, lk, lc⟩ := s
  dsimp at he hl
  subst he
  subst hl
  simp [stepChar, h1, h2]

/-- C8 witness: a star inside a link is appended verbatim, with no bold
toggling. -/
theorem link_content_verbatim_witness :
    stepChar ⟨none, none, none, some 0, "u"⟩ 3 '*' =
      .next ⟨none, none, none, some 0, String.push "u" '*'⟩ "" :=
  link_content_verbatim.1 ⟨none, none, none, some 0, "u"⟩ 3 '*' 0 rfl rfl
    (by decide) (by decide)

/-- C9: the URL half of a link gets URL-component escaping while the
Label half gets HTML entity escaping: a less-than sign becomes
lowercase percent hex in the URL and an entity in the label. -/
theorem link_escaping_policies :
    renderLine "[<a 2]" = .ok "<a href=\"%3ca\">2</a>" ∧
    renderLine "[1 <]" = .ok "<a href=\"1\">&lt;</a>" ∧
    escapeURL "<" = "%3c" ∧
    templateEscape "<" = "&lt;" := by
  decide

/-- C10: on every paragraph line the code-open and link-open trackers
are never active together in any state reachable from the initial
state, while a pending escape can coexist with code-open, link-open or
bold-open, as the three concrete runs show. -/
theorem code_link_mutual_exclusion :
    (∀ (pre : List Char) (s : IState) (out : String),
      runChars initState 0 "" pre = .done s out →
      s.lastCode = none ∨ s.lastLink = none) ∧
    runChars initState 0 "" ['`', '\\'] = .done ⟨some 1, none, some 0, none, ""⟩ "<code>" ∧
    runChars initState 0 "" ['[', '\\'] = .done ⟨some 1, none, none, some 0, ""⟩ "" ∧
    runChars initState 0 "" ['*', '\\'] = .done ⟨some 1, some 0, none, none, ""⟩ "<strong>" :=
  ⟨fun pre s out h => runChars_excl pre initState 0 "" s out (Or.inl rfl) h,
   by decide, by decide, by decide⟩

/-- C10 witness: the invariant evaluated on the state reached after an
inline code opener followed by a backslash. -/
theorem code_link_mutual_exclusion_witness :
    (⟨some 1, none, some 0, none, ""⟩ : IState).lastCode = none ∨
    (⟨some 1, none, some 0, none, ""⟩ : IState).lastLink = none :=
  code_link_mutual_exclusion.1 ['`', '\\'] ⟨some 1, none, some 0, none, ""⟩ "<code>"
    (by decide)

end Rnzml
